import Mathlib

/-!
Verification of the sentinel2yaral core (src/main.py) against its
natural-language specification.

Shallow embedding conventions:
* Python strings are modelled as `List Char` (`Chars`) for the sanitizer and
  as Lean `String` for prompt assembly.
* `str.replace(old, '')` (left-to-right, non-overlapping removal of every
  occurrence) is embedded per pattern: `removeYaral` for the literal
  pattern made of three backticks followed by "yaral", and `removeTicks`
  for the three-backtick pattern, matching line 148 of src/main.py.
* `str.strip()` is embedded as `pyStrip`, dropping the ASCII whitespace
  characters Python strips, from both ends.
* The remote Vertex AI call is an oracle `outcome : String → Nat → Except ε
  String` giving, per region and per attempt index against that region,
  either the response text or an error.
-/

/-- Characters of a Python string. -/
abbrev Chars := List Char

/-- The backtick character (written by code point to keep source clean). -/
def bq : Char := '\x60'

/-- The generic fence pattern of src/main.py line 148: three backticks. -/
def tickFence : Chars := "```".data

/-- The language-tagged fence pattern of src/main.py line 148. -/
def yaralFence : Chars := "```yaral".data

/-- Embedding of `content.replace('```yaral', '')` (src/main.py line 148):
left-to-right non-overlapping removal of every occurrence of the
eight-character pattern. -/
def removeYaral : Chars → Chars
  | c1 :: c2 :: c3 :: c4 :: c5 :: c6 :: c7 :: c8 :: rest =>
    if [c1, c2, c3, c4, c5, c6, c7, c8] = yaralFence then
      removeYaral rest
    else
      c1 :: removeYaral (c2 :: c3 :: c4 :: c5 :: c6 :: c7 :: c8 :: rest)
  | s => s

/-- Embedding of `content.replace('```', '')` (src/main.py line 148):
left-to-right non-overlapping removal of every three-backtick occurrence. -/
def removeTicks : Chars → Chars
  | c1 :: c2 :: c3 :: rest =>
    if [c1, c2, c3] = tickFence then
      removeTicks rest
    else
      c1 :: removeTicks (c2 :: c3 :: rest)
  | s => s

/-- The characters removed from both ends by Python `str.strip()`
(ASCII whitespace). -/
def isPySpace (c : Char) : Bool :=
  c == ' ' || c == '\t' || c == '\n' || c == '\r' || c == '\x0b' || c == '\x0c'

/-- Embedding of `content.strip()` (src/main.py line 151). -/
def pyStrip (s : Chars) : Chars :=
  ((s.dropWhile isPySpace).reverse.dropWhile isPySpace).reverse

/-- Embedding of `clean_yaral_content` (src/main.py lines 145-153):
remove the language-tagged fence pattern, then the generic fence pattern,
then strip surrounding whitespace. -/
def clean_yaral_content (s : Chars) : Chars :=
  pyStrip (removeTicks (removeYaral s))

/-- Number of leading backticks of a character list. -/
def leadTicks (s : Chars) : Nat :=
  (s.takeWhile (fun c => c == bq)).length

/-- Embedding of the `GenerationConfig` value built by the client
(src/main.py lines 46-50, 66-71). The float-valued fields are carried as
rationals; the client never computes with them, it only passes them on. -/
structure GenerationConfig where
  max_output_tokens : Nat
  temperature : ℚ
  top_p : ℚ
deriving DecidableEq

/-- Defaults of `LLMConfig` (src/config/llm_config.py). -/
def llmDefaultGenerationConfig : GenerationConfig :=
  { max_output_tokens := 8192, temperature := 2/10, top_p := 95/100 }

/-- `LLMConfig.available_models` (src/config/llm_config.py, set by
`__post_init__`). -/
def llmAvailableModels : List String :=
  ["gemini-2.0-flash-001", "gemini-1.5-pro-002", "gemini-1.5-flash-002"]

/-- Embedding of the `GeminiRegionClient` state (src/main.py lines 36-53).
The safety settings (config/safety_config.py, not under src/) are threaded
opaquely to the remote call and never influence control flow, so no field
carries them. -/
structure GeminiRegionClient where
  project_id : String
  regions : List String
  default_generation_config : GenerationConfig
  available_models : List String
  model_name : String
deriving DecidableEq

/-- Python truthiness of an optional string: `None` and `""` are falsy,
as in `project_id or os.environ.get("GCP_PROJECT")` and
`if not self.project_id` (src/main.py lines 38-39). -/
def truthyStr : Option String → Bool
  | none => false
  | some s => !(s == "")

/-- Python `a or b` on optional strings. -/
def pyOrStr (a b : Option String) : Option String :=
  if truthyStr a then a else b

/-- Embedding of `GeminiRegionClient.__init__` (src/main.py lines 37-53):
`project_id` is the caller-supplied argument (default `None`); `envProject`
is the value of the `GCP_PROJECT` environment variable (`None` when
unset). `AVAILABLE_REGIONS` (config/region_config.py, not under src/) is
passed in as `availableRegions`; its value never affects the construction
logic. -/
def GeminiRegionClient.init (project_id : Option String)
    (envProject : Option String) (availableRegions : List String) :
    Except String GeminiRegionClient :=
  let pid := pyOrStr project_id envProject
  if truthyStr pid then
    Except.ok
      { project_id := pid.getD ""
        regions := availableRegions
        default_generation_config := llmDefaultGenerationConfig
        available_models := llmAvailableModels
        model_name := llmAvailableModels.headI }
  else
    Except.error "Project ID must be provided or set in GCP_PROJECT environment variable"

/-- Embedding of `set_model` (src/main.py lines 61-64). On the error
branch the exception is raised before the assignment, so the client state
is unchanged; success returns the updated client. -/
def GeminiRegionClient.set_model (c : GeminiRegionClient)
    (model_name : String) : Except String GeminiRegionClient :=
  if model_name ∉ c.available_models then
    Except.error ("Model " ++ model_name ++ " not available. Choose from the available models")
  else
    Except.ok { c with model_name := model_name }

/-- Embedding of `_get_model` (src/main.py lines 58-59): the model bound
for the next underlying call is `self.model_name`. -/
def GeminiRegionClient.get_model (c : GeminiRegionClient) : String :=
  c.model_name

/-- Embedding of `update_generation_config` (src/main.py lines 66-71). -/
def GeminiRegionClient.update_generation_config (c : GeminiRegionClient)
    (temperature : ℚ) (max_output_tokens : Nat) (top_p : ℚ) :
    GeminiRegionClient :=
  { c with default_generation_config :=
      { max_output_tokens := max_output_tokens
        temperature := temperature
        top_p := top_p } }

/-- The trace of underlying calls: for each call, the region bound for it
and the generation config passed to `model.generate_content`. -/
abbrev CallTrace := List (String × GenerationConfig)

/-- Attempt index for region `r`: how many calls to `r` the trace holds. -/
def countCalls (tr : CallTrace) (r : String) : Nat :=
  tr.countP (fun p => p.1 == r)

/-- The `for region in self.regions` loop of `generate_content`
(src/main.py lines 77-96), threading the call trace, the remaining
`kwargs` content (the `generation_config` key, which `kwargs.pop` removes
the first time the loop body runs) and `last_error`. The `raise` of line
97 becomes the `Except.error` carrying the last underlying error (`none`
only when no call was made). The oracle `outcome r k` is the result of
the k-th underlying call against region `r`. -/
def sweepGo {ε : Type} (outcome : String → Nat → Except ε String)
    (dflt : GenerationConfig) :
    List String → Option GenerationConfig → CallTrace → Option ε →
    CallTrace × Except (Option ε) String
  | [], _, tr, last_error => (tr, Except.error last_error)
  | r :: rs, kw, tr, _ =>
    let gen_config := kw.getD dflt
    match outcome r (countCalls tr r) with
    | Except.ok t => (tr ++ [(r, gen_config)], Except.ok t)
    | Except.error e =>
      sweepGo outcome dflt rs none (tr ++ [(r, gen_config)]) (some e)

/-- The tenacity `@retry(stop=stop_after_attempt(3))` decorator on
`generate_content` (src/main.py line 73): the decorated body (one full
region sweep) is invoked up to the attempt budget; each invocation
receives a fresh copy of the caller's `kwargs`. The exponential-backoff
sleeps only delay the calls and are not modelled. -/
def retryGo {ε : Type} (outcome : String → Nat → Except ε String)
    (dflt : GenerationConfig) (regions : List String)
    (kwargs : Option GenerationConfig) :
    Nat → CallTrace → Option (Option ε) →
    CallTrace × Except (Option ε) String
  | 0, tr, lastExc => (tr, Except.error (lastExc.getD none))
  | n + 1, tr, _ =>
    match sweepGo outcome dflt regions kwargs tr none with
    | (tr', Except.ok t) => (tr', Except.ok t)
    | (tr', Except.error e) =>
      retryGo outcome dflt regions kwargs n tr' (some e)

/-- Embedding of `GeminiRegionClient.generate_content` (src/main.py lines
73-97): `kwargs` holds the caller's optional `generation_config` override.
Returns the full underlying-call trace and the final outcome; an
`Except.error` is the surfaced all-regions-failed failure carrying the
last underlying error. -/
def GeminiRegionClient.generate_content {ε : Type} (c : GeminiRegionClient)
    (outcome : String → Nat → Except ε String)
    (kwargs : Option GenerationConfig) :
    CallTrace × Except (Option ε) String :=
  retryGo outcome c.default_generation_config c.regions kwargs 3 [] none

/-- The calls one failing sweep makes: each region once, in order; the
first call uses the popped `generation_config` override when present,
every later call the default (the override was popped from `kwargs`). -/
def sweepTrace (dflt : GenerationConfig) :
    List String → Option GenerationConfig → CallTrace
  | [], _ => []
  | r :: rs, kw => (r, kw.getD dflt) :: sweepTrace dflt rs none

/-- The `last_error` an all-failing sweep over `rs` raises when started
with trace `tr` and incoming last error `le`, for failure oracle `f`. -/
def sweepErr {ε : Type} (f : String → Nat → ε) (rs : List String)
    (tr : CallTrace) (le : Option ε) : Option ε :=
  match rs.getLast? with
  | none => le
  | some lr => some (f lr (countCalls tr lr + List.count lr rs - 1))

/-- A concrete client over the region list ["r1", "r2"] (the spec's
failover scenario). -/
def clientR1R2 : GeminiRegionClient :=
  { project_id := "p", regions := ["r1", "r2"],
    default_generation_config := llmDefaultGenerationConfig,
    available_models := llmAvailableModels,
    model_name := "gemini-2.0-flash-001" }

/-- Oracle for the spec scenario: every attempt against "r1" fails, "r2"
succeeds immediately with "OK". -/
def outcomeR2Ok : String → Nat → Except Unit String :=
  fun r _ => if r = "r2" then Except.ok "OK" else Except.error ()

/-- Oracle where every attempt in every region fails, with an error value
recording which region/attempt produced it. -/
def outcomeAllFail : String → Nat → Except (String × Nat) String :=
  fun r k => Except.error (r, k)

/-- A caller-supplied generation-config override, distinct from the
configured default. -/
def overrideConfig : GenerationConfig :=
  { max_output_tokens := 100, temperature := 0, top_p := 1 }

/-- A concrete client over the region list ["a", "b", "c"]. -/
def clientABC : GeminiRegionClient :=
  { project_id := "p", regions := ["a", "b", "c"],
    default_generation_config := llmDefaultGenerationConfig,
    available_models := llmAvailableModels,
    model_name := "gemini-2.0-flash-001" }

/-- Oracle where "a" always fails and "b" succeeds with "T". -/
def outcomeMidOk : String → Nat → Except Nat String :=
  fun r _ => if r = "b" then Except.ok "T" else Except.error 7

/-- The fields `convert_to_yaral` reads from the parsed input rule via
`rule_content.get(...)` (src/main.py lines 181-185); absent keys give the
literal defaults of those lines. -/
structure RuleContent where
  name : Option String
  description : Option String
  severity : Option String
  tactics : Option (List String)
  techniques : Option (List String)

/-- The `mapping_reference` literal (src/main.py lines 160-169),
including its leading/trailing indentation. -/
def mappingReference : String :=
  "\n    Common Event Type Mappings:\n    - SecurityEvent (EventID 4688) → PROCESS_LAUNCH\n    - SigninLogs → USER_LOGIN\n    - CommonSecurityLog → NETWORK_CONNECTION\n    - AuditLogs → AUDIT_EVENT\n    - FileCreateEvents → FILE_CREATION\n    - OfficeActivity → RESOURCE_ACCESS\n    - AzureActivity → CLOUD_ACTIVITY\n    "

/-- One reference-example entry of `examples_text` (src/main.py line
173): label, filename, then the example body in a generic fence. -/
def exampleEntry (filename content : String) : String :=
  "Example - " ++ filename ++ ":\n```\n" ++ content ++ "\n```"

/-- The literal line of the prompt template introducing the
reference-example section (src/main.py line 192). -/
def refExamplesHeader : String :=
  "Reference Examples of Well-Formatted YARAL Rules:"

/-- The prompt template up to (and excluding) the reference-example
header: task statement, labeled rule fields with their `get` defaults,
serialized rule body, and the mapping reference (src/main.py lines
178-191). `yamlDump` stands for the output of
`yaml.dump(rule_content, default_flow_style=False)`, produced by the
external yaml library and taken here as an input. -/
def promptIntro (rc : RuleContent) (yamlDump : String) : String :=
  "Task: Convert the provided Microsoft Sentinel detection rule into a Chronicle Yara-L rule format.\n\nInput Rule Details:\nName: "
  ++ rc.name.getD "Unknown"
  ++ "\nDescription: " ++ rc.description.getD "No description provided"
  ++ "\nSeverity: " ++ rc.severity.getD "Medium"
  ++ "\nMITRE Tactics: " ++ String.intercalate ", " (rc.tactics.getD [])
  ++ "\nMITRE Techniques: " ++ String.intercalate ", " (rc.techniques.getD [])
  ++ "\n\nOriginal Rule Content:\n" ++ yamlDump
  ++ "\n\n" ++ mappingReference ++ "\n\n"

/-- `examples_text` (src/main.py lines 172-176): the entries for every
example whose filename ends in ".yaral", joined by blank lines. -/
def examplesText (yaralExamples : List (String × String)) : String :=
  String.intercalate "\n\n"
    ((yaralExamples.filter (fun p => p.1.endsWith ".yaral")).map
      (fun p => exampleEntry p.1 p.2))

/-- The prompt template after the reference-example header: the examples
block, then the output-requirements checklist and closing instructions
(src/main.py lines 193-210). -/
def promptTail (yaralExamples : List (String × String)) : String :=
  "\n" ++ examplesText yaralExamples
  ++ "\n\nOutput Requirements:\n1. Maintain detection logic equivalence while adapting to Yara-L syntax\n2. Use appropriate Chronicle data sources and fields based on the mapping reference\n3. Preserve the rule\x27s metadata (severity, description, tactics)\n4. Follow the same structure as the example YARAL rules:\n   - rule block with curly braces\n   - meta section with description, author, rule_id, and severity\n   - events section with event types and variable assignments\n   - match section for conditions\n   - outcome section for risk scores and output variables\n   - condition section at the end\n5. Add comments explaining any complex logic translations\n6. Include appropriate time windows and error handling\n\nThe author of the rule should always be \"Gemini\"\nPlease convert this rule to Chronicle YARAL format while maintaining its detection capabilities and following the patterns shown in the example rules."

/-- The full conversion prompt assembled by `convert_to_yaral`
(src/main.py lines 178-210): the f-string is the concatenation of the
intro, the reference-example header, and the tail. -/
def convertPrompt (rc : RuleContent) (yamlDump : String)
    (yaralExamples : List (String × String)) : String :=
  promptIntro rc yamlDump ++ refExamplesHeader ++ promptTail yaralExamples

theorem tickFence_eq : tickFence = [bq, bq, bq] := by decide

theorem leadTicks_nil : leadTicks [] = 0 := rfl

theorem leadTicks_cons_bq (s : Chars) : leadTicks (bq :: s) = leadTicks s + 1 := by
  simp [leadTicks, List.takeWhile_cons]

theorem leadTicks_cons_ne {c : Char} (h : c ≠ bq) (s : Chars) :
    leadTicks (c :: s) = 0 := by
  simp [leadTicks, List.takeWhile_cons, h]

theorem removeTicks_leadTicks_le (s : Chars) :
    leadTicks (removeTicks s) ≤ leadTicks s := by
  induction s using removeTicks.induct with
  | case1 c1 c2 c3 rest hm ih =>
    rw [removeTicks, if_pos hm]
    rw [tickFence_eq] at hm
    obtain ⟨h1, h2, h3⟩ : c1 = bq ∧ c2 = bq ∧ c3 = bq := by
      simpa using hm
    subst h1; subst h2; subst h3
    rw [leadTicks_cons_bq, leadTicks_cons_bq, leadTicks_cons_bq]
    omega
  | case2 c1 c2 c3 rest hm ih =>
    rw [removeTicks, if_neg hm]
    by_cases h1 : c1 = bq
    · subst h1
      rw [leadTicks_cons_bq, leadTicks_cons_bq]
      omega
    · rw [leadTicks_cons_ne h1, leadTicks_cons_ne h1]
  | case3 s h =>
    rcases s with _ | ⟨a, _ | ⟨b, _ | ⟨c, r⟩⟩⟩
    · exact Nat.le_refl _
    · exact Nat.le_refl _
    · exact Nat.le_refl _
    · exact (h a b c r rfl).elim

theorem two_le_leadTicks_iff (s : Chars) :
    2 ≤ leadTicks s ↔ ∃ u, s = bq :: bq :: u := by
  constructor
  · intro h
    match s with
    | [] => simp [leadTicks_nil] at h
    | [c] =>
      by_cases hc : c = bq
      · subst hc
        rw [leadTicks_cons_bq, leadTicks_nil] at h
        omega
      · rw [leadTicks_cons_ne hc] at h
        omega
    | c1 :: c2 :: u =>
      by_cases h1 : c1 = bq
      · by_cases h2 : c2 = bq
        · exact ⟨u, by rw [h1, h2]⟩
        · subst h1
          rw [leadTicks_cons_bq, leadTicks_cons_ne h2] at h
          omega
      · rw [leadTicks_cons_ne h1] at h
        omega
  · rintro ⟨u, rfl⟩
    rw [leadTicks_cons_bq, leadTicks_cons_bq]
    omega

theorem no_tickFence_in_removeTicks (s : Chars) :
    ¬ tickFence <:+: removeTicks s := by
  induction s using removeTicks.induct with
  | case1 c1 c2 c3 rest hm ih =>
    rw [removeTicks, if_pos hm]
    exact ih
  | case2 c1 c2 c3 rest hm ih =>
    rw [removeTicks, if_neg hm]
    intro hinf
    rcases List.infix_cons_iff.mp hinf with hpre | htail
    · rw [tickFence_eq] at hpre
      rw [List.cons_prefix_cons] at hpre
      obtain ⟨h1, hpre2⟩ := hpre
      have h2 : 2 ≤ leadTicks (removeTicks (c2 :: c3 :: rest)) := by
        rcases hpre2 with ⟨t, ht⟩
        rw [two_le_leadTicks_iff]
        exact ⟨t, by simpa using ht.symm⟩
      have h3 : 2 ≤ leadTicks (c2 :: c3 :: rest) :=
        le_trans h2 (removeTicks_leadTicks_le _)
      rw [two_le_leadTicks_iff] at h3
      obtain ⟨u, hu⟩ := h3
      apply hm
      rw [tickFence_eq]
      have hc2 : c2 = bq := by injection hu
      have hrest : c3 :: rest = bq :: u := by
        injection hu with _ h'
      have hc3 : c3 = bq := by injection hrest
      simp [h1, hc2, hc3]
    · exact ih htail
  | case3 s h =>
    rcases s with _ | ⟨a, _ | ⟨b, _ | ⟨c, r⟩⟩⟩
    · intro hinf
      have hlen := hinf.length_le
      rw [show removeTicks [] = [] from rfl] at hlen
      simp [tickFence] at hlen
    · intro hinf
      have hlen := hinf.length_le
      rw [show removeTicks [a] = [a] from rfl] at hlen
      simp [tickFence] at hlen
    · intro hinf
      have hlen := hinf.length_le
      rw [show removeTicks [a, b] = [a, b] from rfl] at hlen
      simp [tickFence] at hlen
    · exact (h a b c r rfl).elim

example : removeTicks "ab``` cd```ef".data = "ab cdef".data := by decide

example : removeYaral "x```yaraly".data = "xy".data := by decide

example : clean_yaral_content "```yaral\nrule X \x7b\x7d\n```".data
    = "rule X \x7b\x7d".data := by decide

theorem removeTicks_of_no_inf {s : Chars} (h : ¬ tickFence <:+: s) :
    removeTicks s = s := by
  induction s using removeTicks.induct with
  | case1 c1 c2 c3 rest hm ih =>
    exact absurd ( List.IsPrefix.isInfix ⟨rest, by rw [← hm]; rfl⟩) h
  | case2 c1 c2 c3 rest hm ih =>
    rw [removeTicks, if_neg hm]
    rw [ih (fun hinf => h (List.infix_cons hinf))]
  | case3 s hs =>
    rcases s with _ | ⟨a, _ | ⟨b, _ | ⟨c, r⟩⟩⟩
    · rfl
    · rfl
    · rfl
    · exact (hs a b c r rfl).elim

theorem tickFence_of_yaralFence_inf {s : Chars} (h : yaralFence <:+: s) :
    tickFence <:+: s :=
  List.IsInfix.trans ( List.IsPrefix.isInfix (by decide)) h

theorem removeYaral_of_no_inf {s : Chars} (h : ¬ yaralFence <:+: s) :
    removeYaral s = s := by
  induction s using removeYaral.induct with
  | case1 c1 c2 c3 c4 c5 c6 c7 c8 rest hm ih =>
    exact absurd ( List.IsPrefix.isInfix ⟨rest, by rw [← hm]; rfl⟩) h
  | case2 c1 c2 c3 c4 c5 c6 c7 c8 rest hm ih =>
    rw [removeYaral, if_neg hm]
    rw [ih (fun hinf => h (List.infix_cons hinf))]
  | case3 s hs =>
    rcases s with
      _ | ⟨a1, _ | ⟨a2, _ | ⟨a3, _ | ⟨a4, _ | ⟨a5, _ | ⟨a6, _ | ⟨a7, _ | ⟨a8, r⟩⟩⟩⟩⟩⟩⟩⟩
    · rfl
    · rfl
    · rfl
    · rfl
    · rfl
    · rfl
    · rfl
    · rfl
    · exact (hs a1 a2 a3 a4 a5 a6 a7 a8 r rfl).elim

theorem dropWhile_eq_self_of_pref {p : Char → Bool} {u t : Chars}
    (hpre : u <+: t) (ht : t.dropWhile p = t) : u.dropWhile p = u := by
  rcases u with _ | ⟨a, u'⟩
  · rfl
  · rcases t with _ | ⟨b, t'⟩
    · simp at hpre
    · rw [List.cons_prefix_cons] at hpre
      obtain ⟨rfl, _⟩ := hpre
      have hpb : p a = false := by
        by_contra hp
        rw [Bool.not_eq_false] at hp
        rw [List.dropWhile_cons_of_pos hp] at ht
        have := (List.dropWhile_suffix p (l := t')).length_le
        rw [ht] at this
        simp at this
      rw [List.dropWhile_cons_of_neg (by simp [hpb])]

theorem pyStrip_pref_dropWhile (s : Chars) :
    pyStrip s <+: s.dropWhile isPySpace := by
  have h : (s.dropWhile isPySpace).reverse.dropWhile isPySpace
      <:+ (s.dropWhile isPySpace).reverse :=
    List.dropWhile_suffix isPySpace
  have h2 := List.reverse_prefix.mpr h
  rwa [List.reverse_reverse] at h2

theorem pyStrip_inf (s : Chars) : pyStrip s <:+: s :=
  List.IsInfix.trans
    ( List.IsPrefix.isInfix (pyStrip_pref_dropWhile s))
    ( List.IsSuffix.isInfix (List.dropWhile_suffix isPySpace))

theorem pyStrip_idem (s : Chars) : pyStrip (pyStrip s) = pyStrip s := by
  have h1 : (pyStrip s).dropWhile isPySpace = pyStrip s :=
    dropWhile_eq_self_of_pref (pyStrip_pref_dropWhile s)
      (List.dropWhile_idempotent _ _)
  show ((((pyStrip s).dropWhile isPySpace).reverse).dropWhile isPySpace).reverse
      = pyStrip s
  rw [h1]
  show ((((((s.dropWhile isPySpace).reverse.dropWhile isPySpace).reverse)).reverse).dropWhile isPySpace).reverse
      = pyStrip s
  rw [List.reverse_reverse, List.dropWhile_idempotent]
  rfl

theorem no_tickFence_in_clean (s : Chars) :
    ¬ tickFence <:+: clean_yaral_content s := by
  intro hinf
  exact no_tickFence_in_removeTicks (removeYaral s)
    ( List.IsInfix.trans hinf (pyStrip_inf _))

/-- C10: `clean_yaral_content` removes every occurrence of both fence
markers, anywhere in the input: neither the generic three-backtick fence
nor the language-tagged fence occurs in the returned artifact, for every
input (in particular for inputs whose rule body contains an interior
fence marker). -/
theorem clean_removes_all_fence_markers (s : Chars) :
    ¬ tickFence <:+: clean_yaral_content s
      ∧ ¬ yaralFence <:+: clean_yaral_content s := by
  refine ⟨no_tickFence_in_clean s, fun h => no_tickFence_in_clean s ?_⟩
  exact tickFence_of_yaralFence_inf h

/-- C6: the sanitizer is idempotent — applying `clean_yaral_content` twice
gives the same result as applying it once, for every text. -/
theorem clean_yaral_content_idem (s : Chars) :
    clean_yaral_content (clean_yaral_content s) = clean_yaral_content s := by
  have hticks := no_tickFence_in_clean s
  have hyaral : ¬ yaralFence <:+: clean_yaral_content s :=
    fun h => hticks (tickFence_of_yaralFence_inf h)
  show pyStrip (removeTicks (removeYaral (clean_yaral_content s)))
      = clean_yaral_content s
  rw [removeYaral_of_no_inf hyaral, removeTicks_of_no_inf hticks]
  exact pyStrip_idem _

/-- C7: sanitizing the raw model output consisting of a yaral-tagged fence
around "rule X {}" yields exactly "rule X {}" (braces written by code
point in this source). -/
theorem clean_fenced_rule_example :
    clean_yaral_content "```yaral\nrule X \x7b\x7d\n```".data
      = "rule X \x7b\x7d".data := by decide

theorem sweepTrace_map_fst (dflt : GenerationConfig) :
    ∀ (rs : List String) (kw : Option GenerationConfig),
      (sweepTrace dflt rs kw).map Prod.fst = rs := by
  intro rs
  induction rs with
  | nil => intro kw; rfl
  | cons r rs' ih => intro kw; simp [sweepTrace, ih none]

theorem sweepTrace_length (dflt : GenerationConfig) (rs : List String)
    (kw : Option GenerationConfig) :
    (sweepTrace dflt rs kw).length = rs.length := by
  have h := congrArg List.length (sweepTrace_map_fst dflt rs kw)
  simpa using h

theorem countCalls_append (t1 t2 : CallTrace) (r : String) :
    countCalls (t1 ++ t2) r = countCalls t1 r + countCalls t2 r := by
  simp [countCalls]

theorem countCalls_cons (x : String) (c : GenerationConfig) (t : CallTrace)
    (r : String) :
    countCalls ((x, c) :: t) r = countCalls t r + if x = r then 1 else 0 := by
  by_cases h : x = r <;> simp [countCalls, List.countP_cons, h]

theorem countCalls_sweepTrace (dflt : GenerationConfig) :
    ∀ (rs : List String) (kw : Option GenerationConfig) (r : String),
      countCalls (sweepTrace dflt rs kw) r = List.count r rs := by
  intro rs
  induction rs with
  | nil => intro kw r; rfl
  | cons x rs' ih =>
    intro kw r
    rw [show sweepTrace dflt (x :: rs') kw
          = (x, kw.getD dflt) :: sweepTrace dflt rs' none from rfl]
    rw [countCalls_cons, ih none r, List.count_cons]
    by_cases h : x = r
    · subst h
      simp
    · have h2 : ¬ r = x := fun hc => h hc.symm
      simp [beq_iff_eq, h, h2]

theorem sweepErr_cons {ε : Type} (f : String → Nat → ε) (r : String)
    (rs' : List String) (tr : CallTrace) (c : GenerationConfig)
    (le : Option ε) :
    sweepErr f rs' (tr ++ [(r, c)]) (some (f r (countCalls tr r)))
      = sweepErr f (r :: rs') tr le := by
  rcases rs' with _ | ⟨b, l⟩
  · simp only [sweepErr, List.getLast?_nil, List.getLast?_singleton]
    have hc : List.count r [r] = 1 := by simp
    rw [hc]
    have harith : countCalls tr r + 1 - 1 = countCalls tr r := by omega
    rw [harith]
  · have hne : (b :: l) ≠ ([] : List String) := by simp
    obtain ⟨lr, hlr⟩ : ∃ lr, (b :: l).getLast? = some lr :=
      ⟨(b :: l).getLast hne, List.getLast?_eq_getLast_of_ne_nil hne⟩
    have hlr2 : (r :: b :: l).getLast? = some lr := by
      rw [List.getLast?_cons_cons, hlr]
    simp only [sweepErr, hlr, hlr2, countCalls_append]
    have hsingle : countCalls [(r, c)] lr = if r = lr then 1 else 0 := by
      by_cases h : r = lr <;> simp [countCalls, List.countP_cons, h]
    have hcount : List.count lr (r :: b :: l)
        = List.count lr (b :: l) + if r = lr then 1 else 0 := by
      rw [List.count_cons]
      by_cases h : r = lr
      · simp [h]
      · have h2 : ¬ lr = r := fun hc => h hc.symm
        simp [beq_iff_eq, h, h2]
    rw [hsingle, hcount]
    have harith : countCalls tr lr + (if r = lr then 1 else 0)
          + List.count lr (b :: l) - 1
        = countCalls tr lr + (List.count lr (b :: l)
          + (if r = lr then 1 else 0)) - 1 := by
      by_cases h : r = lr <;> simp [h]
    rw [harith]

theorem sweepGo_allfail {ε : Type} {outcome : String → Nat → Except ε String}
    {f : String → Nat → ε}
    (hfail : ∀ r k, outcome r k = Except.error (f r k))
    (dflt : GenerationConfig) :
    ∀ (rs : List String) (kw : Option GenerationConfig) (tr : CallTrace)
      (le : Option ε),
      sweepGo outcome dflt rs kw tr le
        = (tr ++ sweepTrace dflt rs kw, Except.error (sweepErr f rs tr le)) := by
  intro rs
  induction rs with
  | nil =>
    intro kw tr le
    simp [sweepGo, sweepTrace, sweepErr]
  | cons r rs' ih =>
    intro kw tr le
    simp only [sweepGo, hfail]
    rw [ih none (tr ++ [(r, kw.getD dflt)]) (some (f r (countCalls tr r)))]
    rw [sweepErr_cons f r rs' tr (kw.getD dflt) le]
    rw [show sweepTrace dflt (r :: rs') kw
          = (r, kw.getD dflt) :: sweepTrace dflt rs' none from rfl]
    simp

theorem retryGo_allfail {ε : Type} {outcome : String → Nat → Except ε String}
    {f : String → Nat → ε}
    (hfail : ∀ r k, outcome r k = Except.error (f r k))
    (dflt : GenerationConfig) (regions : List String)
    (kwargs : Option GenerationConfig) :
    ∀ (n : Nat) (tr : CallTrace) (x : Option (Option ε)),
      retryGo outcome dflt regions kwargs (n + 1) tr x
        = (tr ++ (List.replicate (n + 1) (sweepTrace dflt regions kwargs)).flatten,
           Except.error (sweepErr f regions
             (tr ++ (List.replicate n (sweepTrace dflt regions kwargs)).flatten)
             none)) := by
  intro n
  induction n with
  | zero =>
    intro tr x
    simp only [retryGo, sweepGo_allfail hfail]
    simp
  | succ m ih =>
    intro tr x
    have hstep : retryGo outcome dflt regions kwargs (m + 1 + 1) tr x
        = retryGo outcome dflt regions kwargs (m + 1)
            (tr ++ sweepTrace dflt regions kwargs)
            (some (sweepErr f regions tr none)) := by
      show (match sweepGo outcome dflt regions kwargs tr none with
            | (tr', Except.ok t) => (tr', Except.ok t)
            | (tr', Except.error e) =>
                retryGo outcome dflt regions kwargs (m + 1) tr' (some e)) = _
      rw [sweepGo_allfail hfail dflt regions kwargs tr none]
    rw [hstep,
        ih (tr ++ sweepTrace dflt regions kwargs) (some (sweepErr f regions tr none))]
    simp [List.replicate_succ, List.append_assoc]

/-- Closed form of `generate_content` under an all-failing oracle: three
identical sweeps (each region once per sweep, in order), then the failure
carrying the last sweep's last error. -/
theorem generate_content_allfail {ε : Type} (c : GeminiRegionClient)
    {outcome : String → Nat → Except ε String} {f : String → Nat → ε}
    (hfail : ∀ r k, outcome r k = Except.error (f r k))
    (kwargs : Option GenerationConfig) :
    c.generate_content outcome kwargs
      = ((List.replicate 3 (sweepTrace c.default_generation_config c.regions kwargs)).flatten,
         Except.error (sweepErr f c.regions
           ((List.replicate 2 (sweepTrace c.default_generation_config c.regions kwargs)).flatten)
           none)) := by
  show retryGo outcome c.default_generation_config c.regions kwargs 3 [] none = _
  rw [show (3 : Nat) = 2 + 1 from rfl,
      retryGo_allfail hfail c.default_generation_config c.regions kwargs 2 [] none]
  simp

/-- C1 counterexample: in the scenario regionList = ["r1", "r2"], r1
always failing, r2 succeeding first try with "OK", the claimed attempt
counts (3 on r1, 1 on r2) are false on the code: the retry decorator
wraps the whole region sweep, so the client advances to r2 after a single
r1 failure and the retry budget never fires. -/
theorem generate_scenario_not_three_attempts :
    ¬ ((clientR1R2.generate_content outcomeR2Ok none).2 = Except.ok "OK"
        ∧ countCalls (clientR1R2.generate_content outcomeR2Ok none).1 "r1" = 3
        ∧ countCalls (clientR1R2.generate_content outcomeR2Ok none).1 "r2" = 1) := by
  rintro ⟨h1, h2, h3⟩
  have hc : countCalls (clientR1R2.generate_content outcomeR2Ok none).1 "r1" = 1 := rfl
  omega

/-- C1 amended: in that scenario Generate returns "OK" with exactly one
underlying attempt against r1 and one against r2 — on a failure the
client moves to the next region at once; the 3-attempt budget applies to
the whole region sweep, not per region. -/
theorem generate_scenario_one_attempt_each :
    (clientR1R2.generate_content outcomeR2Ok none).2 = Except.ok "OK"
    ∧ countCalls (clientR1R2.generate_content outcomeR2Ok none).1 "r1" = 1
    ∧ countCalls (clientR1R2.generate_content outcomeR2Ok none).1 "r2" = 1 :=
  ⟨rfl, rfl, rfl⟩

/-- C2: when every underlying attempt in every region fails, Generate
fails after exactly 3 × N underlying call attempts (3 per region for a
duplicate-free region list), and the surfaced all-regions-failed error
carries the last observed underlying error — the third error of the last
region. -/
theorem generate_allfail_three_per_region {ε : Type} (c : GeminiRegionClient)
    (outcome : String → Nat → Except ε String) (f : String → Nat → ε)
    (kwargs : Option GenerationConfig)
    (hfail : ∀ r k, outcome r k = Except.error (f r k))
    (hne : c.regions ≠ []) (hnd : c.regions.Nodup) :
    (c.generate_content outcome kwargs).1.length = 3 * c.regions.length
    ∧ (∀ r ∈ c.regions, countCalls (c.generate_content outcome kwargs).1 r = 3)
    ∧ (c.generate_content outcome kwargs).2
        = Except.error (some (f (c.regions.getLast hne) 2)) := by
  have hG := generate_content_allfail c hfail kwargs
  have hflat3 : (List.replicate 3
        (sweepTrace c.default_generation_config c.regions kwargs)).flatten
      = sweepTrace c.default_generation_config c.regions kwargs
        ++ (sweepTrace c.default_generation_config c.regions kwargs
        ++ sweepTrace c.default_generation_config c.regions kwargs) := by
    simp [List.replicate_succ]
  have hflat2 : (List.replicate 2
        (sweepTrace c.default_generation_config c.regions kwargs)).flatten
      = sweepTrace c.default_generation_config c.regions kwargs
        ++ sweepTrace c.default_generation_config c.regions kwargs := by
    simp [List.replicate_succ]
  have hcount1 : ∀ r ∈ c.regions, List.count r c.regions = 1 := by
    intro r hr
    have hle := List.nodup_iff_count_le_one.mp hnd r
    have hpos := List.count_pos_iff.mpr hr
    omega
  refine ⟨?_, ?_, ?_⟩
  · rw [hG]
    show (List.replicate 3 _).flatten.length = _
    rw [hflat3]
    simp [sweepTrace_length]
    omega
  · intro r hr
    rw [hG]
    show countCalls (List.replicate 3 _).flatten r = 3
    rw [hflat3, countCalls_append, countCalls_append,
        countCalls_sweepTrace, hcount1 r hr]
  · rw [hG]
    show Except.error (sweepErr f c.regions ((List.replicate 2 _).flatten) none)
        = _
    have hlast : c.regions.getLast? = some (c.regions.getLast hne) :=
      List.getLast?_eq_getLast_of_ne_nil hne
    have hmem : c.regions.getLast hne ∈ c.regions := List.getLast_mem hne
    simp only [sweepErr, hlast]
    have harg : countCalls
          ((List.replicate 2
            (sweepTrace c.default_generation_config c.regions kwargs)).flatten)
          (c.regions.getLast hne)
        + List.count (c.regions.getLast hne) c.regions - 1 = 2 := by
      rw [hflat2, countCalls_append, countCalls_sweepTrace, hcount1 _ hmem]
    rw [harg]

/-- Witness for C2 at the concrete two-region client and all-failing
oracle: 6 underlying calls, 3 per region, and the surfaced error is the
third error observed on "r2". -/
theorem generate_allfail_three_per_region_witness :
    (clientR1R2.generate_content outcomeAllFail none).1.length
        = 3 * clientR1R2.regions.length
    ∧ (∀ r ∈ clientR1R2.regions,
        countCalls (clientR1R2.generate_content outcomeAllFail none).1 r = 3)
    ∧ (clientR1R2.generate_content outcomeAllFail none).2
        = Except.error (some (("r2", 2) : String × Nat)) := by
  have h := generate_allfail_three_per_region clientR1R2 outcomeAllFail
    (fun r k => (r, k)) none (fun r k => rfl) (by decide) (by decide)
  exact ⟨h.1, h.2.1, by rw [h.2.2]; rfl⟩

/-- C3 (code bug): with an override supplied and the first region
failing, the underlying call against the second region is issued with the
default generation config, not the override — `kwargs.pop` inside the
region loop removes the override after the first region, so later regions
silently fall back to the default. -/
theorem generate_override_dropped_after_first_region :
    clientR1R2.generate_content outcomeR2Ok (some overrideConfig)
      = ([("r1", overrideConfig), ("r2", llmDefaultGenerationConfig)],
         Except.ok "OK")
    ∧ overrideConfig ≠ llmDefaultGenerationConfig :=
  ⟨rfl, by decide⟩

theorem sweepGo_first_success {ε : Type}
    {outcome : String → Nat → Except ε String} {f : String → Nat → ε}
    (dflt : GenerationConfig) (rS t : String) (post : List String)
    (hS : outcome rS 0 = Except.ok t) :
    ∀ (pre : List String) (kw : Option GenerationConfig) (tr : CallTrace)
      (le : Option ε),
      (∀ r ∈ pre, ∀ k, outcome r k = Except.error (f r k)) →
      rS ∉ pre → countCalls tr rS = 0 →
      sweepGo outcome dflt (pre ++ rS :: post) kw tr le
        = (tr ++ sweepTrace dflt (pre ++ [rS]) kw, Except.ok t) := by
  intro pre
  induction pre with
  | nil =>
    intro kw tr le hpre hnotin h0
    simp only [List.nil_append, sweepGo]
    rw [h0, hS]
    simp [sweepTrace]
  | cons r pre' ih =>
    intro kw tr le hpre hnotin h0
    have hr := hpre r (List.mem_cons_self r pre')
    simp only [List.cons_append, sweepGo, hr, List.append_eq]
    have hcount : countCalls (tr ++ [(r, kw.getD dflt)]) rS = 0 := by
      rw [countCalls_append, h0]
      have hne2 : r ≠ rS := fun hc => hnotin (hc ▸ List.mem_cons_self r pre')
      simp [countCalls, List.countP_cons, hne2]
    rw [ih none (tr ++ [(r, kw.getD dflt)]) (some (f r (countCalls tr r)))
        (fun x hx => hpre x (List.mem_cons_of_mem r hx))
        (fun hmem => hnotin (List.mem_cons_of_mem r hmem)) hcount]
    simp [sweepTrace, List.append_assoc]

/-- C4: with the first K regions all failing and region K+1 succeeding on
its first attempt, Generate returns the success text, and the underlying
calls are exactly one per region up to and including region K+1, in
order — no region after K+1 is ever called. -/
theorem generate_first_success_no_later_calls {ε : Type}
    (c : GeminiRegionClient) (outcome : String → Nat → Except ε String)
    (f : String → Nat → ε) (pre : List String) (rS : String)
    (post : List String) (t : String) (kwargs : Option GenerationConfig)
    (hreg : c.regions = pre ++ rS :: post)
    (hpre : ∀ r ∈ pre, ∀ k, outcome r k = Except.error (f r k))
    (hS : outcome rS 0 = Except.ok t) (hnotin : rS ∉ pre) :
    (c.generate_content outcome kwargs).2 = Except.ok t
    ∧ (c.generate_content outcome kwargs).1.map Prod.fst = pre ++ [rS] := by
  have hG : c.generate_content outcome kwargs
      = (sweepTrace c.default_generation_config (pre ++ [rS]) kwargs,
         Except.ok t) := by
    show (match sweepGo outcome c.default_generation_config c.regions kwargs
            [] none with
          | (tr', Except.ok t') => (tr', Except.ok t')
          | (tr', Except.error e) =>
              retryGo outcome c.default_generation_config c.regions kwargs 2
                tr' (some e)) = _
    rw [hreg, sweepGo_first_success c.default_generation_config rS t post hS
          pre kwargs [] none hpre hnotin rfl]
    simp
  rw [hG]
  exact ⟨rfl, sweepTrace_map_fst _ _ _⟩

/-- Witness for C4: with regions ["a", "b", "c"], "a" failing and "b"
succeeding at once, the call returns "T", calls "a" then "b" once each,
and never calls "c". -/
theorem generate_first_success_no_later_calls_witness :
    (clientABC.generate_content outcomeMidOk none).2 = Except.ok "T"
    ∧ (clientABC.generate_content outcomeMidOk none).1.map Prod.fst
        = ["a"] ++ ["b"] :=
  generate_first_success_no_later_calls clientABC outcomeMidOk
    (fun _x _k => 7) ["a"] "b" ["c"] "T" none rfl
    (by
      intro r hr k
      have hra : r = "a" := by simpa using hr
      subst hra
      rfl)
    rfl (by decide)

/-- C8: `set_model` fails iff the identifier is not in the configured
available-model set; the exception is raised before any assignment, so on
failure the caller keeps the unchanged client. On success the active
model — the one `_get_model` binds for subsequent calls — becomes the
requested identifier and no other state changes. -/
theorem set_model_spec (c : GeminiRegionClient) (m : String) :
    (m ∉ c.available_models → ∃ msg, c.set_model m = Except.error msg)
    ∧ (m ∈ c.available_models →
        c.set_model m = Except.ok { c with model_name := m }
        ∧ ({ c with model_name := m } : GeminiRegionClient).get_model = m) := by
  constructor
  · intro h
    unfold GeminiRegionClient.set_model
    rw [if_pos h]
    exact ⟨_, rfl⟩
  · intro h
    have h2 : ¬ m ∉ c.available_models := fun hc => hc h
    unfold GeminiRegionClient.set_model
    rw [if_neg h2]
    exact ⟨rfl, rfl⟩

/-- Witness for C8: "nonexistent-model" is rejected, a configured model
is accepted and becomes the active model. -/
theorem set_model_spec_witness :
    (∃ msg, clientR1R2.set_model "nonexistent-model" = Except.error msg)
    ∧ clientR1R2.set_model "gemini-1.5-pro-002"
        = Except.ok { clientR1R2 with model_name := "gemini-1.5-pro-002" } :=
  ⟨(set_model_spec clientR1R2 "nonexistent-model").1 (by decide),
   ((set_model_spec clientR1R2 "gemini-1.5-pro-002").2 (by decide)).1⟩

theorem truthy_pyOrStr (a b : Option String) :
    truthyStr (pyOrStr a b) = (truthyStr a || truthyStr b) := by
  by_cases h : truthyStr a <;> simp [pyOrStr, h]

/-- C9: construction fails iff no project identity is resolvable — the
caller-supplied identity is absent or empty and the `GCP_PROJECT`
environment value is absent or empty; otherwise construction succeeds and
the client uses the supplied identity when truthy, else the environment
one (Python `or` semantics). -/
theorem init_project_identity_spec (supplied envProject : Option String)
    (availableRegions : List String) :
    ((∃ msg, GeminiRegionClient.init supplied envProject availableRegions
        = Except.error msg)
      ↔ (truthyStr supplied = false ∧ truthyStr envProject = false))
    ∧ (∀ c, GeminiRegionClient.init supplied envProject availableRegions
          = Except.ok c →
        c.project_id = (pyOrStr supplied envProject).getD "") := by
  have hkey := truthy_pyOrStr supplied envProject
  by_cases hp : truthyStr (pyOrStr supplied envProject) = true
  · have hok : GeminiRegionClient.init supplied envProject availableRegions
        = Except.ok
          { project_id := (pyOrStr supplied envProject).getD ""
            regions := availableRegions
            default_generation_config := llmDefaultGenerationConfig
            available_models := llmAvailableModels
            model_name := llmAvailableModels.headI } := by
      unfold GeminiRegionClient.init
      show (if truthyStr (pyOrStr supplied envProject) = true then _ else _) = _
      rw [if_pos hp]
    refine ⟨⟨?_, ?_⟩, ?_⟩
    · rintro ⟨msg, hmsg⟩
      rw [hok] at hmsg
      exact absurd hmsg (by simp)
    · rintro ⟨hsup, henv⟩
      rw [hsup, henv] at hkey
      simp at hkey
      exact absurd hkey (by simpa using hp)
    · intro c hc
      rw [hok] at hc
      have hc2 := Except.ok.inj hc
      rw [← hc2]
  · have herr : GeminiRegionClient.init supplied envProject availableRegions
        = Except.error
          "Project ID must be provided or set in GCP_PROJECT environment variable" := by
      unfold GeminiRegionClient.init
      show (if truthyStr (pyOrStr supplied envProject) = true then _ else _) = _
      rw [if_neg hp]
    have hfalse : (truthyStr supplied || truthyStr envProject) = false := by
      rw [← hkey]
      simpa using hp
    refine ⟨⟨?_, ?_⟩, ?_⟩
    · intro _
      simpa using hfalse
    · intro _
      exact ⟨_, herr⟩
    · intro c hc
      rw [herr] at hc
      exact absurd hc (by simp)

/-- Witness for C9: a supplied empty identity falls through to the
environment value "envproj"; with both empty or absent, construction
fails. -/
theorem init_project_identity_spec_witness :
    (∀ c, GeminiRegionClient.init (some "") (some "envproj") []
        = Except.ok c → c.project_id = "envproj")
    ∧ (∃ msg, GeminiRegionClient.init (some "") none []
        = Except.error msg) := by
  refine ⟨fun c hc => ?_, ?_⟩
  · have h := (init_project_identity_spec (some "") (some "envproj") []).2 c hc
    simpa [pyOrStr, truthyStr] using h
  · exact (init_project_identity_spec (some "") none []).1.mpr (by decide)

/-- C5 counterexample: at a concrete input rule with an empty
reference-example sequence, the assembled prompt still contains the
reference-example section header — section (e) is not omitted. -/
theorem convertPrompt_empty_examples_counterexample :
    refExamplesHeader.data
      <:+: (convertPrompt ⟨none, none, none, none, none⟩ "x" []).data :=
  ⟨(promptIntro ⟨none, none, none, none, none⟩ "x").data,
   (promptTail []).data,
   by simp [convertPrompt]⟩

/-- C5 amended: for every input rule and serialized body, with an empty
reference-example sequence the prompt still contains the
reference-example section header; only the per-example entries are
absent (the examples block itself is the empty string). -/
theorem convertPrompt_empty_examples_header_kept (rc : RuleContent)
    (yamlDump : String) :
    refExamplesHeader.data <:+: (convertPrompt rc yamlDump []).data
    ∧ examplesText [] = "" :=
  ⟨⟨(promptIntro rc yamlDump).data, (promptTail []).data,
    by simp [convertPrompt]⟩,
   rfl⟩
